import Mathlib

/-!
Verification of the NBA dashboard backend's analytical core.

The Rust source is shallowly embedded: `f64`/`f32` arithmetic is modelled by
exact rationals, fallible lookups by `Option`, SQL row sets by explicit lists
(carrying whatever ordering the corresponding query's ORDER BY clause
guarantees, stated as hypotheses where a theorem depends on it), and the
request-time wall clock by explicit date/hour/minute parameters.

Sources embedded:
  - backend/src/routes/line_shopping.rs: implied_prob, devigged_over_prob,
    has_game_started, get_top_picks (its pure per-group/sort/truncate core).
  - backend/src/db/mod.rs: get_shooting_zone_matchup (pure core),
    get_assist_zones_with_team_defense (pure core), normalize_name,
    get_team_defensive_play_type_ranks (pure core).
-/

/-! ## Odds math (line_shopping.rs) -/

/-- Convert American odds to implied probability, from line_shopping.rs
`implied_prob`: negative odds give abs(odds)/(abs(odds)+100), other odds give
100/(odds+100). -/
def implied_prob (odds : ℤ) : ℚ :=
  if odds < 0 then
    |(odds : ℚ)| / (|(odds : ℚ)| + 100)
  else
    100 / ((odds : ℚ) + 100)

/-- Devig the over probability using the multiplicative method, from
line_shopping.rs `devigged_over_prob`: none when either side is missing or the
total implied probability is below 0.001. -/
def devigged_over_prob (over_odds under_odds : Option ℤ) : Option ℚ :=
  match over_odds, under_odds with
  | some oo, some uo =>
    let over := implied_prob oo
    let under := implied_prob uo
    let total := over + under
    if total < 1/1000 then none else some (over / total)
  | _, _ => none

/-! ## Game-state filter (line_shopping.rs `has_game_started`) -/

/-- A civil calendar date, as compared by chrono's NaiveDate. -/
structure Date where
  year : ℤ
  month : ℕ
  day : ℕ
deriving DecidableEq, Repr

/-- Chronological strict order on valid calendar dates (chrono NaiveDate Ord):
lexicographic on (year, month, day). -/
def dateLt (a b : Date) : Bool :=
  decide (a.year < b.year) ||
    (decide (a.year = b.year) &&
      (decide (a.month < b.month) ||
        (decide (a.month = b.month) && decide (a.day < b.day))))

/-- Gregorian leap-year rule used by chrono for date validation. -/
def isLeapYear (y : ℤ) : Bool :=
  decide (y % 4 = 0) && (decide (y % 100 ≠ 0) || decide (y % 400 = 0))

/-- Number of days in a month for calendar-date validation. -/
def daysInMonth (y : ℤ) (m : ℕ) : ℕ :=
  match m with
  | 1 => 31
  | 2 => if isLeapYear y then 29 else 28
  | 3 => 31
  | 4 => 30
  | 5 => 31
  | 6 => 30
  | 7 => 31
  | 8 => 31
  | 9 => 30
  | 10 => 31
  | 11 => 30
  | 12 => 31
  | _ => 0

/-- Numeric value of an ASCII digit. -/
def digitVal (c : Char) : ℕ := c.toNat - '0'.toNat

/-- Fold a digit run into a number. -/
def digitsToNat (ds : List Char) : ℕ :=
  ds.foldl (fun acc c => 10 * acc + digitVal c) 0

/-- Model of chrono's NaiveDate::parse_from_str with format "%Y-%m-%d": an
optionally signed year digit run, a dash, a one-or-two digit month, a dash, a
one-or-two digit day, nothing trailing; the triple must be a valid calendar
date. Returns none on any failure. -/
def parse_game_date (s : String) : Option Date :=
  let cs := s.data
  let signed : Bool × List Char :=
    match cs with
    | '-' :: rest => (true, rest)
    | '+' :: rest => (false, rest)
    | _ => (false, cs)
  let ydigits := signed.2.takeWhile Char.isDigit
  let afterY := signed.2.dropWhile Char.isDigit
  if ydigits = [] then none
  else
    match afterY with
    | '-' :: rest1 =>
      let mdigits := (rest1.takeWhile Char.isDigit).take 2
      let afterM := rest1.drop mdigits.length
      if mdigits = [] then none
      else
        match afterM with
        | '-' :: rest2 =>
          let ddigits := (rest2.takeWhile Char.isDigit).take 2
          let afterD := rest2.drop ddigits.length
          if ddigits = [] then none
          else if afterD ≠ [] then none
          else
            let y : ℤ := if signed.1 then -(digitsToNat ydigits : ℤ) else (digitsToNat ydigits : ℤ)
            let m := digitsToNat mdigits
            let d := digitsToNat ddigits
            if 1 ≤ m ∧ m ≤ 12 ∧ 1 ≤ d ∧ d ≤ daysInMonth y m then
              some ⟨y, m, d⟩
            else none
        | _ => none
    | _ => none

/-- Recognize the meridiem alternation AM|PM|am|pm of the time regex at the
head of the character list (the captured text). -/
def meridiemAt (cs : List Char) : Option String :=
  match cs with
  | 'A' :: 'M' :: _ => some "AM"
  | 'P' :: 'M' :: _ => some "PM"
  | 'a' :: 'm' :: _ => some "am"
  | 'p' :: 'm' :: _ => some "pm"
  | _ => none

/-- Attempt of the time pattern at a fixed position with a two-digit hour
(the greedy first try of the \d one-to-two quantifier). -/
def matchTimeTwo (cs : List Char) : Option (ℕ × ℕ × String) :=
  match cs with
  | c1 :: c2 :: ':' :: c3 :: c4 :: rest =>
    if c1.isDigit && c2.isDigit && c3.isDigit && c4.isDigit then
      (meridiemAt (rest.dropWhile Char.isWhitespace)).map
        (fun mer => (10 * digitVal c1 + digitVal c2, 10 * digitVal c3 + digitVal c4, mer))
    else none
  | _ => none

/-- Attempt of the time pattern at a fixed position with a one-digit hour
(the backtracking second try of the \d one-to-two quantifier). -/
def matchTimeOne (cs : List Char) : Option (ℕ × ℕ × String) :=
  match cs with
  | c1 :: ':' :: c3 :: c4 :: rest =>
    if c1.isDigit && c3.isDigit && c4.isDigit then
      (meridiemAt (rest.dropWhile Char.isWhitespace)).map
        (fun mer => (digitVal c1, 10 * digitVal c3 + digitVal c4, mer))
    else none
  | _ => none

/-- Leftmost-first search of the regex (\d one-or-two):(\d\d)\s*(AM|PM|am|pm)
over the time string, returning the captured (hours, minutes, meridiem). -/
def findTimeMatch : List Char → Option (ℕ × ℕ × String)
  | [] => none
  | c :: rest =>
    match matchTimeTwo (c :: rest) with
    | some r => some r
    | none =>
      match matchTimeOne (c :: rest) with
      | some r => some r
      | none => findTimeMatch rest

/-- Meridiem adjustment of has_game_started: uppercase the captured meridiem,
add 12 to PM hours other than 12 and send 12 AM to hour 0. -/
def to_24_hour (h : ℕ) (mer : String) : ℕ :=
  let am_pm : String := ⟨mer.data.map Char.toUpper⟩
  if am_pm = "PM" ∧ h ≠ 12 then h + 12
  else if am_pm = "AM" ∧ h = 12 then 0
  else h

/-- Check whether a game has started, from line_shopping.rs
`has_game_started`. The current Eastern instant is passed explicitly as the
civil date `today` plus `now_hour`/`now_minute`. -/
def has_game_started (today : Date) (now_hour now_minute : ℕ)
    (game_date : String) (game_time : Option String) : Bool :=
  match parse_game_date game_date with
  | none => false
  | some parsed_date =>
    if dateLt today parsed_date then false
    else if dateLt parsed_date today then true
    else
      match game_time with
      | none => false
      | some t =>
        if t = "TBD" ∨ t = "Scheduled" ∨ t = "12:00 AM" then false
        else
          match findTimeMatch t.data with
          | none => false
          | some (h, m, mer) =>
            let hours := to_24_hour h mer
            decide (now_hour > hours) || (decide (now_hour = hours) && decide (now_minute ≥ m))

/-! ## Name normalization (db/mod.rs `normalize_name`) -/

/-- The accented characters and their replacements, transcribing the match
arms of the closure inside db/mod.rs `normalize_name` in source order (the
fixed table of the specification). -/
def accent_table : List (Char × Char) :=
  [ ('á', 'a'), ('à', 'a'), ('ä', 'a'), ('â', 'a'), ('ã', 'a'),
    ('é', 'e'), ('è', 'e'), ('ë', 'e'), ('ê', 'e'),
    ('í', 'i'), ('ì', 'i'), ('ï', 'i'), ('î', 'i'),
    ('ó', 'o'), ('ò', 'o'), ('ö', 'o'), ('ô', 'o'), ('õ', 'o'),
    ('ú', 'u'), ('ù', 'u'), ('ü', 'u'), ('û', 'u'),
    ('ć', 'c'), ('č', 'c'), ('ç', 'c'),
    ('ñ', 'n'), ('š', 's'), ('ž', 'z'),
    ('ý', 'y'), ('ÿ', 'y'), ('đ', 'd'),
    ('Á', 'A'), ('À', 'A'), ('Ä', 'A'), ('Â', 'A'), ('Ã', 'A'),
    ('É', 'E'), ('È', 'E'), ('Ë', 'E'), ('Ê', 'E'),
    ('Í', 'I'), ('Ì', 'I'), ('Ï', 'I'), ('Î', 'I'),
    ('Ó', 'O'), ('Ò', 'O'), ('Ö', 'O'), ('Ô', 'O'), ('Õ', 'O'),
    ('Ú', 'U'), ('Ù', 'U'), ('Ü', 'U'), ('Û', 'U'),
    ('Ć', 'C'), ('Č', 'C'), ('Ç', 'C'),
    ('Ñ', 'N'), ('Š', 'S'), ('Ž', 'Z'),
    ('Ý', 'Y'), ('Ÿ', 'Y'), ('Đ', 'D') ]

/-- The unaccented replacement characters, each a fixed point of
`normalize_char`. -/
def accent_targets : List Char :=
  ['a', 'e', 'i', 'o', 'u', 'c', 'n', 's', 'z', 'y', 'd',
   'A', 'E', 'I', 'O', 'U', 'C', 'N', 'S', 'Z', 'Y', 'D']

/-- Per-character accent replacement, the match of the closure inside
db/mod.rs `normalize_name`: the first matching arm's replacement applies (the
arm patterns are pairwise distinct) and every unlisted character is returned
unchanged. -/
def normalize_char (c : Char) : Char :=
  (accent_table.lookup c).getD c

/-- Normalize a name by removing accents, from db/mod.rs `normalize_name`
(name.chars().map(..).collect()). -/
def normalize_name (s : String) : String :=
  ⟨s.data.map normalize_char⟩

/-! ## Shooting-zone matchup (db/mod.rs `get_shooting_zone_matchup`)

Row structures follow backend/src/models/mod.rs; the float columns are
modelled as rationals and the SQL result sets as lists. -/

/-- A player_shooting_zones row (models::PlayerShootingZones). -/
structure PlayerShootingZones where
  player_id : ℤ
  season : String
  zone_name : String
  fgm : ℚ
  fga : ℚ
  fg_pct : ℚ
  efg_pct : ℚ
deriving DecidableEq, Repr

/-- A team_defensive_zones row (models::TeamDefensiveZones). -/
structure TeamDefensiveZones where
  team_id : ℤ
  season : String
  zone_name : String
  opp_fgm : ℚ
  opp_fga : ℚ
  opp_fg_pct : ℚ
  opp_efg_pct : ℚ
deriving DecidableEq, Repr

/-- The local ZoneDefense row of get_shooting_zone_matchup (team_id,
zone_name, opp_fg_pct across all teams). -/
structure ZoneDefense where
  team_id : ℤ
  zone_name : String
  opp_fg_pct : ℚ
deriving DecidableEq, Repr

/-- One output row of the shooting-zone matchup
(models::ShootingZoneMatchup). -/
structure ShootingZoneMatchup where
  zone_name : String
  player_fgm : ℚ
  player_fga : ℚ
  player_fg_pct : ℚ
  player_volume_pct : ℚ
  opp_fg_pct : ℚ
  opp_rank : ℤ
  league_avg_pct : ℚ
  advantage : ℚ
  is_three : Bool
  has_data : Bool
deriving DecidableEq, Repr

/-- The fixed zone-name table of get_shooting_zone_matchup, each name tagged
as a three-point zone or not, in display order. -/
def zone_names : List (String × Bool) :=
  [ ("Above the Break 3", true),
    ("In The Paint (Non-RA)", false),
    ("Left Corner 3", true),
    ("Mid-Range", false),
    ("Restricted Area", false),
    ("Right Corner 3", true) ]

/-- Body of the per-zone loop of get_shooting_zone_matchup, for one entry of
`zone_names`, given the player rows, the opponent's defensive rows, the
league-wide defensive rows and the player's precomputed total attempts. -/
def build_shooting_zone (player_zones : List PlayerShootingZones)
    (opponent_def_zones : List TeamDefensiveZones)
    (all_def_zones : List ZoneDefense) (opponent_team_id : ℤ)
    (total_fga : ℚ) (zn : String × Bool) : ShootingZoneMatchup :=
  let zone_name := zn.1
  let player_zone := player_zones.find? (fun z => z.zone_name == zone_name)
  let opp_zone := opponent_def_zones.find? (fun z => z.zone_name == zone_name)
  let zone_defenses := all_def_zones.filter (fun z => z.zone_name == zone_name)
  let league_avg : ℚ :=
    if zone_defenses ≠ [] then
      (zone_defenses.map (fun z => z.opp_fg_pct)).sum / (zone_defenses.length : ℚ)
    else 0
  let opp_rank : ℤ :=
    match opp_zone with
    | some _ =>
      match zone_defenses.findIdx? (fun z => z.team_id == opponent_team_id) with
      | some pos => (pos : ℤ) + 1
      | none => 15
    | none => 15
  let has_data := player_zone.isSome && opp_zone.isSome
  let player_fg_pct := (player_zone.map (fun z => z.fg_pct)).getD 0
  let player_fga := (player_zone.map (fun z => z.fga)).getD 0
  let player_fgm := (player_zone.map (fun z => z.fgm)).getD 0
  let opp_fg_pct := (opp_zone.map (fun z => z.opp_fg_pct * 100)).getD 0
  let league_avg_pct := league_avg * 100
  let player_volume_pct := if total_fga > 0 then player_fga / total_fga * 100 else 0
  let player_vs_league := player_fg_pct - league_avg_pct
  let opp_vs_league := opp_fg_pct - league_avg_pct
  let advantage := player_vs_league + opp_vs_league
  { zone_name := zone_name
    player_fgm := player_fgm
    player_fga := player_fga
    player_fg_pct := player_fg_pct
    player_volume_pct := player_volume_pct
    opp_fg_pct := opp_fg_pct
    opp_rank := opp_rank
    league_avg_pct := league_avg_pct
    advantage := advantage
    is_three := zn.2
    has_data := has_data }

/-- Pure core of get_shooting_zone_matchup: the zones vector of the response,
built over the fixed zone-name table. -/
def shooting_zone_matchup_zones (player_zones : List PlayerShootingZones)
    (opponent_def_zones : List TeamDefensiveZones)
    (all_def_zones : List ZoneDefense) (opponent_team_id : ℤ) :
    List ShootingZoneMatchup :=
  zone_names.map
    (build_shooting_zone player_zones opponent_def_zones all_def_zones
      opponent_team_id ((player_zones.map (fun z => z.fga)).sum))

/-! ## Assist-zone matchup (db/mod.rs `get_assist_zones_with_team_defense`) -/

/-- A player_assist_zones row (models::PlayerAssistZones). -/
structure PlayerAssistZones where
  player_id : ℤ
  season : String
  zone_name : String
  assists : ℤ
  ast_fgm : ℤ
  ast_fga : ℤ
deriving DecidableEq, Repr

/-- One output row of the assist-zone matchup (models::AssistZoneMatchup). -/
structure AssistZoneMatchup where
  zone_name : String
  player_assists : ℤ
  player_ast_pct : ℚ
  opp_def_rank : ℤ
  opp_def_fg_pct : ℚ
  has_data : Bool
deriving DecidableEq, Repr

/-- Body of the per-zone loop of get_assist_zones_with_team_defense for one of
the player's assist-zone rows; `all_team_zones` lists (team_id, zone_name,
opp_fg_pct) across the league. -/
def build_assist_zone (opponent_def_zones : List TeamDefensiveZones)
    (all_team_zones : List (ℤ × String × ℚ)) (total_assists : ℤ)
    (player_zone : PlayerAssistZones) : AssistZoneMatchup :=
  let opp_def := opponent_def_zones.find? (fun z => z.zone_name == player_zone.zone_name)
  let triple : ℚ × ℤ × Bool :=
    match opp_def with
    | some def_zone =>
      let rank : ℤ :=
        ((all_team_zones.filter
          (fun r => r.2.1 == player_zone.zone_name && decide (r.2.2 < def_zone.opp_fg_pct))).length : ℤ) + 1
      (def_zone.opp_fg_pct, rank, true)
    | none => (0, 0, false)
  let player_ast_pct : ℚ :=
    if total_assists > 0 then ((player_zone.assists : ℚ) / (total_assists : ℚ)) * 100 else 0
  { zone_name := player_zone.zone_name
    player_assists := player_zone.assists
    player_ast_pct := player_ast_pct
    opp_def_rank := triple.2.1
    opp_def_fg_pct := triple.1
    has_data := triple.2.2 }

/-- Pure core of get_assist_zones_with_team_defense: the zones vector of the
response, one entry per player assist-zone row. -/
def assist_zone_matchup_zones (player_zones : List PlayerAssistZones)
    (opponent_def_zones : List TeamDefensiveZones)
    (all_team_zones : List (ℤ × String × ℚ)) : List AssistZoneMatchup :=
  player_zones.map
    (build_assist_zone opponent_def_zones all_team_zones
      ((player_zones.map (fun z => z.assists)).sum))

/-! ## League-wide defensive play-type ranks
(db/mod.rs `get_team_defensive_play_type_ranks`) -/

/-- The rank-assignment loop of get_team_defensive_play_type_ranks: rows are
(team_id, play_type, ppp) as delivered by the query (ordered by play_type then
ppp ascending); the running play type and rank start at the empty string and
zero, and the rank restarts at each play-type change. The emitted association
list mirrors the HashMap inserts in iteration order. -/
def play_type_ranks_aux (current_play_type : String) (rank : ℕ) :
    List (ℤ × String × ℚ) → List ((ℤ × String) × ℕ)
  | [] => []
  | (team_id, play_type, _ppp) :: rest =>
    let rank2 := if play_type ≠ current_play_type then 1 else rank + 1
    ((team_id, play_type), rank2) :: play_type_ranks_aux play_type rank2 rest

/-- Pure core of get_team_defensive_play_type_ranks. -/
def get_team_defensive_play_type_ranks (rows : List (ℤ × String × ℚ)) :
    List ((ℤ × String) × ℕ) :=
  play_type_ranks_aux "" 0 rows

/-- Final loop state (current play type, current rank) after processing a row
list, used to reason about the rank assignment over list concatenations. -/
def play_type_ranks_state (current_play_type : String) (rank : ℕ) :
    List (ℤ × String × ℚ) → String × ℕ
  | [] => (current_play_type, rank)
  | (_, play_type, _ppp) :: rest =>
    let rank2 := if play_type ≠ current_play_type then 1 else rank + 1
    play_type_ranks_state play_type rank2 rest

/-! ## Top-picks screener (line_shopping.rs `get_top_picks`) -/

/-- One sharp book's line and odds (models::SharpBookLine). -/
structure SharpBookLine where
  sportsbook : String
  line : ℚ
  over_odds : Option ℤ
  under_odds : Option ℤ
deriving DecidableEq, Repr

/-- All book data grouped for one player and stat (the CandidateGroup of
line_shopping.rs); one HashMap value after the grouping pass. -/
structure CandidateGroup where
  player_name : String
  stat_type : String
  ud_line : ℚ
  ud_odds : Option ℤ
  home_team : String
  away_team : String
  game_date : String
  books : List SharpBookLine
deriving DecidableEq, Repr

/-- Computed top pick (models::TopPick). -/
structure TopPick where
  player_name : String
  stat_type : String
  direction : String
  ud_line : ℚ
  ud_odds : Option ℤ
  ud_implied_prob : ℚ
  edge_pct : ℚ
  best_book : String
  best_book_devigged_prob : ℚ
  books : List SharpBookLine
  home_team : String
  away_team : String
  game_date : String
deriving DecidableEq, Repr

/-- Default reference odds when the group's own odds are missing. -/
def ud_default_odds : ℤ := -110

/-- One iteration of the best-edge loop of get_top_picks: a book contributes
only when its line is within 0.01 of the reference line and its market devigs;
a strictly larger absolute edge replaces the running best. The accumulator is
(best_edge, best_book, best_devigged). -/
def best_edge_step (ud_prob ud_line : ℚ) (acc : ℚ × String × ℚ)
    (book : SharpBookLine) : ℚ × String × ℚ :=
  if |book.line - ud_line| < 1/100 then
    match devigged_over_prob book.over_odds book.under_odds with
    | some sharp_over =>
      let edge := sharp_over - ud_prob
      if |edge| > |acc.1| then
        (edge, book.sportsbook, if edge > 0 then sharp_over else 1 - sharp_over)
      else acc
    | none => acc
  else acc

/-- The best-edge loop of get_top_picks over a group's books, starting from
edge zero, empty book name and devigged probability zero. -/
def best_edge_fold (ud_prob ud_line : ℚ) (books : List SharpBookLine) :
    ℚ × String × ℚ :=
  books.foldl (best_edge_step ud_prob ud_line) (0, "", 0)

/-- Round a probability-scale value to one decimal of a percentage, the
(x * 1000).round() / 10 step of get_top_picks. -/
def round_tenth (x : ℚ) : ℚ := ((round (x * 1000) : ℤ) : ℚ) / 10

/-- The per-group closure of get_top_picks: compute the best edge over books
at the matching line, drop the group when no book was retained or the edge is
negligible, otherwise emit the pick. -/
def pick_of_group (group : CandidateGroup) : Option TopPick :=
  let ud_odds_val := group.ud_odds.getD ud_default_odds
  let ud_prob := implied_prob ud_odds_val
  let best := best_edge_fold ud_prob group.ud_line group.books
  let best_edge := best.1
  let best_book := best.2.1
  let best_devigged := best.2.2
  if best_book = "" ∨ |best_edge| < 5/1000 then none
  else
    let is_over := decide (best_edge > 0)
    let direction := if is_over then "OVER" else "UNDER"
    let edge_pct := round_tenth |best_edge|
    let ud_dir_prob := if is_over then ud_prob else 1 - ud_prob
    some
      { player_name := group.player_name
        stat_type := group.stat_type
        direction := direction
        ud_line := group.ud_line
        ud_odds := group.ud_odds
        ud_implied_prob := round_tenth ud_dir_prob
        edge_pct := edge_pct
        best_book := best_book
        best_book_devigged_prob := round_tenth best_devigged
        books := group.books
        home_team := group.home_team
        away_team := group.away_team
        game_date := group.game_date }

/-- Pure tail of get_top_picks after the grouping pass: one optional pick per
group, stably sorted descending by edge percentage, truncated to 20. The
group list stands for the HashMap values in their iteration order. -/
def get_top_picks (groups : List CandidateGroup) : List TopPick :=
  ((groups.filterMap pick_of_group).mergeSort
    (fun a b => decide (b.edge_pct ≤ a.edge_pct))).take 20

/-! ## Odds-math theorems -/

/-- C8: impliedProbability follows the negative/positive odds formulas, lies
strictly between 0 and 1 for every nonzero integer odds value, maps 150 to
0.4 and maps -110 to approximately 0.5238. -/
theorem implied_prob_spec :
    (∀ odds : ℤ, odds ≠ 0 →
      implied_prob odds =
        (if odds < 0 then |(odds : ℚ)| / (|(odds : ℚ)| + 100)
         else 100 / ((odds : ℚ) + 100)) ∧
      0 < implied_prob odds ∧ implied_prob odds < 1) ∧
    implied_prob 150 = 2/5 ∧
    |implied_prob (-110) - 5238/10000| < 1/10000 := by
  refine ⟨?_, by norm_num [implied_prob], by norm_num [implied_prob, abs_lt]⟩
  intro odds h0
  refine ⟨rfl, ?_⟩
  rcases lt_or_gt_of_ne h0 with hneg | hpos
  · have habs : (0 : ℚ) < |(odds : ℚ)| := by
      rw [abs_pos]
      exact_mod_cast h0
    rw [implied_prob, if_pos hneg]
    constructor
    · exact div_pos habs (by linarith)
    · rw [div_lt_one (by linarith)]
      linarith
  · have h1 : (1 : ℚ) ≤ (odds : ℚ) := by exact_mod_cast hpos
    rw [implied_prob, if_neg (not_lt.2 (le_of_lt hpos))]
    constructor
    · exact div_pos (by norm_num) (by linarith)
    · rw [div_lt_one (by linarith)]
      linarith

/-- Witness instantiating C8 at odds 150. -/
theorem implied_prob_spec_witness :
    (150 : ℤ) ≠ 0 ∧ 0 < implied_prob 150 ∧ implied_prob 150 < 1 :=
  ⟨by norm_num, (implied_prob_spec.1 150 (by norm_num)).2⟩

/-- C5: devigOverProbability is none exactly when a side is missing or the
total implied probability is negligible, otherwise the multiplicative devig;
with the symmetric ( -110, -110 ), missing, and (100, -100) evaluations. -/
theorem devigged_over_prob_spec :
    (∀ over_odds under_odds : Option ℤ,
      devigged_over_prob over_odds under_odds = none ↔
        over_odds = none ∨ under_odds = none ∨
          ∃ a b, over_odds = some a ∧ under_odds = some b ∧
            implied_prob a + implied_prob b < 1/1000) ∧
    (∀ a b : ℤ, ¬(implied_prob a + implied_prob b < 1/1000) →
      devigged_over_prob (some a) (some b) =
        some (implied_prob a / (implied_prob a + implied_prob b))) ∧
    devigged_over_prob (some (-110)) (some (-110)) = some (1/2) ∧
    devigged_over_prob none (some (-110)) = none ∧
    devigged_over_prob (some 100) (some (-100)) = some (1/2) := by
  have hstep : ∀ a b : ℤ, devigged_over_prob (some a) (some b) =
      if implied_prob a + implied_prob b < 1/1000 then none
      else some (implied_prob a / (implied_prob a + implied_prob b)) := by
    intro a b
    rfl
  refine ⟨?_, ?_, ?_, rfl, ?_⟩
  · intro over_odds under_odds
    rcases over_odds with _ | a
    · simp [devigged_over_prob]
    · rcases under_odds with _ | b
      · simp [devigged_over_prob]
      · rw [hstep]
        by_cases h : implied_prob a + implied_prob b < 1/1000
        · rw [if_pos h]
          exact iff_of_true rfl (Or.inr (Or.inr ⟨a, b, rfl, rfl, h⟩))
        · rw [if_neg h]
          apply iff_of_false
          · simp
          · rintro (h1 | h1 | ⟨x, y, hx, hy, hlt⟩)
            · exact absurd h1 (by simp)
            · exact absurd h1 (by simp)
            · rw [Option.some.injEq] at hx hy
              subst hx
              subst hy
              exact absurd hlt h
  · intro a b h
    rw [hstep, if_neg h]
  · rw [hstep, if_neg (by norm_num [implied_prob])]
    norm_num [implied_prob]
  · rw [hstep, if_neg (by norm_num [implied_prob])]
    norm_num [implied_prob]

/-- Witness instantiating C5's positive branch at odds (-110, -110). -/
theorem devigged_over_prob_spec_witness :
    ¬(implied_prob (-110) + implied_prob (-110) < 1/1000) ∧
    devigged_over_prob (some (-110)) (some (-110)) =
      some (implied_prob (-110) / (implied_prob (-110) + implied_prob (-110))) :=
  ⟨by norm_num [implied_prob],
   devigged_over_prob_spec.2.1 (-110) (-110) (by norm_num [implied_prob])⟩

/-! ## Name-normalization theorems -/

/-- A lookup on a character association list fails when the key is not among
the stored keys. -/
theorem char_lookup_eq_none (l : List (Char × Char)) (c : Char)
    (h : c ∉ l.map Prod.fst) : l.lookup c = none := by
  induction l with
  | nil => rfl
  | cons p t ih =>
    simp only [List.map_cons, List.mem_cons, not_or] at h
    rw [List.lookup_cons]
    have hfalse : (c == p.1) = false := by simpa using h.1
    rw [hfalse]
    exact ih h.2

/-- A successful lookup on a character association list returns one of the
stored values. -/
theorem char_lookup_mem_snd (l : List (Char × Char)) (c d : Char)
    (h : l.lookup c = some d) : d ∈ l.map Prod.snd := by
  induction l with
  | nil => exact absurd h (by simp [List.lookup])
  | cons p t ih =>
    rw [List.lookup_cons] at h
    cases hc : c == p.1 with
    | true =>
      rw [hc, Option.some.injEq] at h
      subst h
      exact List.mem_map_of_mem _ (List.mem_cons_self _ _)
    | false =>
      rw [hc] at h
      exact List.mem_cons_of_mem _ (ih h)

/-- Every replacement target is itself unchanged by the accent map. -/
theorem normalize_char_fix : ∀ d ∈ accent_targets, normalize_char d = d := by
  decide

/-- The accent map either leaves a character unchanged or lands in the
replacement targets. -/
theorem normalize_char_cases (c : Char) :
    normalize_char c = c ∨ normalize_char c ∈ accent_targets := by
  unfold normalize_char
  rcases h : accent_table.lookup c with _ | d
  · exact Or.inl rfl
  · right
    have hd : d ∈ accent_table.map Prod.snd := char_lookup_mem_snd _ _ _ h
    have hsub : ∀ x ∈ accent_table.map Prod.snd, x ∈ accent_targets := by decide
    simpa using hsub d hd

/-- The accent map is idempotent on characters. -/
theorem normalize_char_idem (c : Char) :
    normalize_char (normalize_char c) = normalize_char c := by
  rcases normalize_char_cases c with h | h
  · rw [h]
    exact h
  · exact normalize_char_fix _ h

/-- C9: name normalization maps the fixed accent table to ASCII equivalents,
leaves every other character unchanged, sends "Luka Dončić" to "Luka Doncic",
and is idempotent. -/
theorem normalize_name_spec :
    normalize_name "Luka Dončić" = "Luka Doncic" ∧
    (∀ s : String, normalize_name (normalize_name s) = normalize_name s) ∧
    (∀ p ∈ accent_table, normalize_char p.1 = p.2) ∧
    (∀ c : Char, c ∉ accent_table.map Prod.fst → normalize_char c = c) := by
  refine ⟨by decide, ?_, by decide, ?_⟩
  · intro s
    unfold normalize_name
    simp only [List.map_map]
    congr 1
    apply List.map_congr_left
    intro a _
    simp only [Function.comp_apply]
    exact normalize_char_idem a
  · intro c hc
    unfold normalize_char
    rw [char_lookup_eq_none _ _ hc]
    rfl

/-- Witness instantiating C9 at the characters X (unmapped) and á (mapped). -/
theorem normalize_name_spec_witness :
    (('X' : Char) ∉ accent_table.map Prod.fst ∧ normalize_char 'X' = 'X') ∧
    (('á', 'a') ∈ accent_table ∧ normalize_char 'á' = 'a') :=
  ⟨⟨by decide, normalize_name_spec.2.2.2 'X' (by decide)⟩,
   ⟨by decide, normalize_name_spec.2.2.1 ('á', 'a') (by decide)⟩⟩

/-! ## Game-state filter theorems -/

/-- Characterization of the chronological date order. -/
theorem dateLt_iff (a b : Date) :
    dateLt a b = true ↔
      (a.year < b.year ∨ (a.year = b.year ∧
        (a.month < b.month ∨ (a.month = b.month ∧ a.day < b.day)))) := by
  simp [dateLt]

/-- The chronological date order is irreflexive. -/
theorem dateLt_irrefl (a : Date) : dateLt a a = false := by
  rw [← Bool.not_eq_true, dateLt_iff]
  omega

/-- C4: hasGameStarted is false for games parsed to a date after today, true
for games parsed to a date before today regardless of the time string, and on
the same day is false for a missing time, sentinel times and unmatched time
strings, and otherwise true exactly when the current (hour, minute) has
reached the parsed, meridiem-adjusted game time. -/
theorem has_game_started_spec :
    ∀ (today : Date) (now_hour now_minute : ℕ) (game_date : String)
      (game_time : Option String) (d : Date),
      parse_game_date game_date = some d →
      (dateLt today d = true →
        has_game_started today now_hour now_minute game_date game_time = false) ∧
      (dateLt d today = true →
        has_game_started today now_hour now_minute game_date game_time = true) ∧
      (d = today →
        (game_time = none →
          has_game_started today now_hour now_minute game_date game_time = false) ∧
        (∀ t, game_time = some t →
          (t = "TBD" ∨ t = "Scheduled" ∨ t = "12:00 AM") →
          has_game_started today now_hour now_minute game_date game_time = false) ∧
        (∀ t, game_time = some t →
          ¬(t = "TBD" ∨ t = "Scheduled" ∨ t = "12:00 AM") →
          findTimeMatch t.data = none →
          has_game_started today now_hour now_minute game_date game_time = false) ∧
        (∀ t h m mer, game_time = some t →
          ¬(t = "TBD" ∨ t = "Scheduled" ∨ t = "12:00 AM") →
          findTimeMatch t.data = some (h, m, mer) →
          (has_game_started today now_hour now_minute game_date game_time = true ↔
            (now_hour > to_24_hour h mer ∨
              (now_hour = to_24_hour h mer ∧ now_minute ≥ m))))) := by
  intro today now_hour now_minute game_date game_time d hparse
  refine ⟨?_, ?_, ?_⟩
  · intro hlt
    simp only [has_game_started, hparse]
    rw [if_pos hlt]
  · intro hlt
    have hfalse : dateLt today d = false := by
      rw [← Bool.not_eq_true, dateLt_iff]
      rw [dateLt_iff] at hlt
      omega
    simp only [has_game_started, hparse]
    rw [hfalse]
    simp only [Bool.false_eq_true, if_false]
    rw [if_pos hlt]
  · intro hd
    subst hd
    have hirr := dateLt_irrefl d
    refine ⟨?_, ?_, ?_, ?_⟩
    · intro hnone
      subst hnone
      simp only [has_game_started, hparse, hirr]
      rfl
    · intro t ht hsent
      subst ht
      simp only [has_game_started, hparse, hirr]
      simp only [Bool.false_eq_true, if_false]
      rw [if_pos hsent]
    · intro t ht hsent hmatch
      subst ht
      simp only [has_game_started, hparse, hirr]
      simp only [Bool.false_eq_true, if_false]
      rw [if_neg hsent]
      simp only [hmatch]
    · intro t h m mer ht hsent hmatch
      subst ht
      simp only [has_game_started, hparse, hirr]
      simp only [Bool.false_eq_true, if_false]
      rw [if_neg hsent]
      simp only [hmatch]
      simp [Bool.or_eq_true, Bool.and_eq_true, decide_eq_true_eq]

/-- Witness instantiating C4 on a concrete past game, a concrete future game
and a concrete same-day 7:30 PM game observed at 19:45 Eastern. -/
theorem has_game_started_spec_witness :
    (parse_game_date "2026-10-11" = some ⟨2026, 10, 11⟩ ∧
      dateLt (⟨2026, 10, 11⟩ : Date) ⟨2026, 10, 12⟩ = true ∧
      has_game_started ⟨2026, 10, 12⟩ 19 45 "2026-10-11" (some "7:30 PM") = true) ∧
    (parse_game_date "2026-10-13" = some ⟨2026, 10, 13⟩ ∧
      dateLt (⟨2026, 10, 12⟩ : Date) ⟨2026, 10, 13⟩ = true ∧
      has_game_started ⟨2026, 10, 12⟩ 19 45 "2026-10-13" (some "7:30 PM") = false) ∧
    (parse_game_date "2026-10-12" = some ⟨2026, 10, 12⟩ ∧
      findTimeMatch ("7:30 PM ET".data) = some (7, 30, "PM") ∧
      (has_game_started ⟨2026, 10, 12⟩ 19 45 "2026-10-12" (some "7:30 PM ET") = true ↔
        (19 > to_24_hour 7 "PM" ∨ (19 = to_24_hour 7 "PM" ∧ 45 ≥ 30)))) :=
  ⟨⟨by decide, by decide,
    (has_game_started_spec ⟨2026, 10, 12⟩ 19 45 "2026-10-11" (some "7:30 PM")
      ⟨2026, 10, 11⟩ (by decide)).2.1 (by decide)⟩,
   ⟨by decide, by decide,
    (has_game_started_spec ⟨2026, 10, 12⟩ 19 45 "2026-10-13" (some "7:30 PM")
      ⟨2026, 10, 13⟩ (by decide)).1 (by decide)⟩,
   ⟨by decide, by decide,
    ((has_game_started_spec ⟨2026, 10, 12⟩ 19 45 "2026-10-12" (some "7:30 PM ET")
      ⟨2026, 10, 12⟩ (by decide)).2.2 rfl).2.2.2 "7:30 PM ET" 7 30 "PM" rfl
      (by decide) (by decide)⟩⟩

/-- C10: a game-date string that does not parse as a calendar date makes
hasGameStarted return false regardless of the time string and the current
instant. -/
theorem has_game_started_unparseable_date :
    ∀ (today : Date) (now_hour now_minute : ℕ) (game_date : String)
      (game_time : Option String),
      parse_game_date game_date = none →
      has_game_started today now_hour now_minute game_date game_time = false := by
  intro today now_hour now_minute game_date game_time h
  simp only [has_game_started, h]

/-- Witness instantiating C10 at the non-date string "tonight". -/
theorem has_game_started_unparseable_date_witness :
    parse_game_date "tonight" = none ∧
    has_game_started ⟨2026, 1, 1⟩ 12 0 "tonight" (some "7:30 PM") = false :=
  ⟨by decide,
   has_game_started_unparseable_date ⟨2026, 1, 1⟩ 12 0 "tonight"
     (some "7:30 PM") (by decide)⟩

/-! ## Shooting-zone matchup theorems -/

/-- C2: in every output zone, advantage is the sum of the player-versus-league
and opponent-versus-league terms, where the player's percentage is used as
stored, the opponent's allowed percentage is the stored fraction times 100,
and the league average percentage is the mean of the stored fractions for the
zone times 100. -/
theorem shooting_zone_advantage_spec
    (player_zones : List PlayerShootingZones)
    (opponent_def_zones : List TeamDefensiveZones)
    (all_def_zones : List ZoneDefense) (opponent_team_id : ℤ)
    (z : ShootingZoneMatchup)
    (hz : z ∈ shooting_zone_matchup_zones player_zones opponent_def_zones
      all_def_zones opponent_team_id) :
    z.advantage = (z.player_fg_pct - z.league_avg_pct) +
      (z.opp_fg_pct - z.league_avg_pct) ∧
    (∀ p, player_zones.find? (fun q => q.zone_name == z.zone_name) = some p →
      z.player_fg_pct = p.fg_pct) ∧
    (∀ o, opponent_def_zones.find? (fun q => q.zone_name == z.zone_name) = some o →
      z.opp_fg_pct = o.opp_fg_pct * 100) ∧
    (all_def_zones.filter (fun q => q.zone_name == z.zone_name) ≠ [] →
      z.league_avg_pct =
        ((all_def_zones.filter (fun q => q.zone_name == z.zone_name)).map
            (fun q => q.opp_fg_pct)).sum /
          ((all_def_zones.filter (fun q => q.zone_name == z.zone_name)).length : ℚ)
          * 100) := by
  rw [shooting_zone_matchup_zones, List.mem_map] at hz
  obtain ⟨zn, _hzn, rfl⟩ := hz
  refine ⟨rfl, ?_, ?_, ?_⟩
  · intro p hp
    simp only [build_shooting_zone] at hp ⊢
    rw [hp]
    rfl
  · intro o ho
    simp only [build_shooting_zone] at ho ⊢
    rw [ho]
    rfl
  · intro hne
    simp only [build_shooting_zone] at hne ⊢
    rw [if_pos hne]

/-- Witness instantiating C2 for a Mid-Range zone with one player row, one
opponent row and one league row. -/
theorem shooting_zone_advantage_spec_witness :
    (⟨"Mid-Range", 4, 10, 40, 100, 50, 1, 50, -10, false, true⟩ : ShootingZoneMatchup) ∈
      shooting_zone_matchup_zones
        [⟨1, "s", "Mid-Range", 4, 10, 40, 40⟩]
        [⟨7, "s", "Mid-Range", 5, 10, 1/2, 1/2⟩]
        [⟨7, "Mid-Range", 1/2⟩] 7 ∧
    ((⟨"Mid-Range", 4, 10, 40, 100, 50, 1, 50, -10, false, true⟩ :
        ShootingZoneMatchup).advantage = (40 - 50) + (50 - 50) ∧
      ([⟨7, "Mid-Range", 1/2⟩] : List ZoneDefense).filter
        (fun q => q.zone_name == "Mid-Range") ≠ [] ∧
      (⟨"Mid-Range", 4, 10, 40, 100, 50, 1, 50, -10, false, true⟩ :
        ShootingZoneMatchup).league_avg_pct = (1/2 : ℚ) / 1 * 100) := by
  have hmem : (⟨"Mid-Range", 4, 10, 40, 100, 50, 1, 50, -10, false, true⟩ :
      ShootingZoneMatchup) ∈
      shooting_zone_matchup_zones
        [⟨1, "s", "Mid-Range", 4, 10, 40, 40⟩]
        [⟨7, "s", "Mid-Range", 5, 10, 1/2, 1/2⟩]
        [⟨7, "Mid-Range", 1/2⟩] 7 := by
    rw [shooting_zone_matchup_zones]
    refine List.mem_map.2 ⟨("Mid-Range", false), by decide, ?_⟩
    simp +decide [build_shooting_zone, List.find?, List.findIdx?, zone_names]
    all_goals norm_num
  have h2 := shooting_zone_advantage_spec
    [⟨1, "s", "Mid-Range", 4, 10, 40, 40⟩]
    [⟨7, "s", "Mid-Range", 5, 10, 1/2, 1/2⟩]
    [⟨7, "Mid-Range", 1/2⟩] 7 _ hmem
  refine ⟨hmem, ?_, by simp +decide [], ?_⟩
  · have := h2.1
    simpa using this
  · have := h2.2.2.2 (by simp +decide [])
    simpa using this

/-- C3 counterexample: with a single Mid-Range player row of 2 attempts, the
reported playerVolumePct is 100, not the claimed attempts-over-total ratio 1;
the field carries the ratio scaled by 100. -/
theorem shooting_zone_volume_counterexample :
    ((shooting_zone_matchup_zones
        [⟨1, "2025-26", "Mid-Range", 1, 2, 50, 50⟩] [] [] 0).map
      (fun z => z.player_volume_pct)) = [0, 0, 0, 100, 0, 0] ∧
    ((([⟨1, "2025-26", "Mid-Range", 1, 2, 50, 50⟩] : List PlayerShootingZones).map
        (fun q => q.fga)).sum = 2) ∧
    ¬((100 : ℚ) = 2 / 2) := by
  refine ⟨?_, by norm_num, by norm_num⟩
  simp +decide [shooting_zone_matchup_zones, build_shooting_zone, zone_names,
    List.find?]

/-- A first-match lookup of each key in a duplicate-free key list sums the
looked-up values of a row list whose keys are distinct and all drawn from the
key list. -/
theorem sum_find_fga (pz : List PlayerShootingZones) :
    ∀ ks : List String, ks.Nodup →
      ((pz.map (fun q => q.zone_name)).Nodup) →
      (∀ p ∈ pz, p.zone_name ∈ ks) →
      (ks.map (fun n =>
        ((pz.find? (fun q => q.zone_name == n)).map (fun q => q.fga)).getD 0)).sum
        = (pz.map (fun q => q.fga)).sum := by
  induction pz with
  | nil =>
    intro ks _ _ _
    simp
  | cons p t ih =>
    intro ks hknd hnd hsub
    simp only [List.map_cons, List.nodup_cons] at hnd
    have hpk : p.zone_name ∈ ks := hsub p (List.mem_cons_self _ _)
    have hperm : ks.Perm (p.zone_name :: ks.erase p.zone_name) :=
      List.perm_cons_erase hpk
    have hsum := (hperm.map (fun n =>
      ((List.find? (fun q => q.zone_name == n) (p :: t)).map
        (fun q => q.fga)).getD 0)).sum_eq
    rw [hsum]
    simp only [List.map_cons, List.sum_cons]
    have hhead : ((List.find? (fun q => q.zone_name == p.zone_name) (p :: t)).map
        (fun q => q.fga)).getD 0 = p.fga := by
      rw [List.find?_cons_of_pos _ (by simp)]
      rfl
    have htail : ∀ n ∈ ks.erase p.zone_name,
        ((List.find? (fun q => q.zone_name == n) (p :: t)).map
          (fun q => q.fga)).getD 0 =
        ((List.find? (fun q => q.zone_name == n) t).map
          (fun q => q.fga)).getD 0 := by
      intro n hn
      have hne : n ≠ p.zone_name := ((hknd.mem_erase_iff).1 hn).1
      rw [List.find?_cons_of_neg _ (by simpa using Ne.symm hne)]
    rw [List.map_congr_left htail]
    rw [ih (ks.erase p.zone_name) (hknd.erase _) hnd.2 ?hsub2]
    · rw [hhead]
    case hsub2 =>
      intro q hq
      have hqk : q.zone_name ∈ ks := hsub q (List.mem_cons_of_mem _ hq)
      have hqne : q.zone_name ≠ p.zone_name := by
        intro he
        exact hnd.1 (he ▸ List.mem_map_of_mem (fun r => r.zone_name) hq)
      exact (List.mem_erase_of_ne hqne).2 hqk

/-- C3 (amended): the response lists exactly the six fixed zones in display
order; a zone with no player row is zero-filled; hasData holds exactly when
both rows exist; playerVolumePct is attempts over total attempts scaled by
100 (zero when the total is zero, and the total over the player's rows equals
the total over the six fixed zones when the rows are one per fixed zone); and
the opponent rank is the 1-based position of the opponent's row in the
ascending-by-fraction row list for the zone, 15 when the opponent has no
row. -/
theorem shooting_zone_output_contract_amended :
    (∀ (pz : List PlayerShootingZones) (odz : List TeamDefensiveZones)
        (adz : List ZoneDefense) (tid : ℤ),
      (shooting_zone_matchup_zones pz odz adz tid).map (fun z => z.zone_name) =
        ["Above the Break 3", "In The Paint (Non-RA)", "Left Corner 3",
         "Mid-Range", "Restricted Area", "Right Corner 3"]) ∧
    (∀ (pz : List PlayerShootingZones) (odz : List TeamDefensiveZones)
        (adz : List ZoneDefense) (tid : ℤ) (z : ShootingZoneMatchup),
      z ∈ shooting_zone_matchup_zones pz odz adz tid →
      (pz.find? (fun q => q.zone_name == z.zone_name) = none →
        z.player_fgm = 0 ∧ z.player_fga = 0 ∧ z.player_fg_pct = 0 ∧
          z.player_volume_pct = 0) ∧
      (z.has_data = true ↔
        ((pz.find? (fun q => q.zone_name == z.zone_name)).isSome = true ∧
         (odz.find? (fun q => q.zone_name == z.zone_name)).isSome = true)) ∧
      (z.player_volume_pct =
        if (pz.map (fun q => q.fga)).sum > 0 then
          z.player_fga / (pz.map (fun q => q.fga)).sum * 100 else 0) ∧
      (odz.find? (fun q => q.zone_name == z.zone_name) = none → z.opp_rank = 15) ∧
      (∀ o pos,
        (adz.filter (fun q => q.zone_name == z.zone_name)).Pairwise
          (fun a b => a.opp_fg_pct ≤ b.opp_fg_pct) →
        odz.find? (fun q => q.zone_name == z.zone_name) = some o →
        (adz.filter (fun q => q.zone_name == z.zone_name)).findIdx?
          (fun q => q.team_id == tid) = some pos →
        z.opp_rank = (pos : ℤ) + 1)) ∧
    (∀ pz : List PlayerShootingZones,
      (pz.map (fun q => q.zone_name)).Nodup →
      (∀ p ∈ pz, p.zone_name ∈ zone_names.map Prod.fst) →
      (pz.map (fun q => q.fga)).sum =
        (zone_names.map (fun zn =>
          ((pz.find? (fun q => q.zone_name == zn.1)).map
            (fun q => q.fga)).getD 0)).sum) := by
  refine ⟨?_, ?_, ?_⟩
  · intro pz odz adz tid
    rfl
  · intro pz odz adz tid z hz
    rw [shooting_zone_matchup_zones, List.mem_map] at hz
    obtain ⟨zn, _hzn, rfl⟩ := hz
    refine ⟨?_, ?_, ?_, ?_, ?_⟩
    · intro hnone
      simp only [build_shooting_zone] at hnone ⊢
      rw [hnone]
      refine ⟨rfl, rfl, rfl, ?_⟩
      split
      · simp
      · rfl
    · simp only [build_shooting_zone]
      simp [Bool.and_eq_true]
    · simp only [build_shooting_zone]
    · intro hnone
      simp only [build_shooting_zone] at hnone ⊢
      rw [hnone]
    · intro o pos _hsorted hsome hidx
      simp only [build_shooting_zone] at hsome hidx ⊢
      rw [hsome, hidx]
  · intro pz hnd hsub
    have h := sum_find_fga pz (zone_names.map Prod.fst) (by decide) hnd hsub
    rw [List.map_map] at h
    exact h.symm

/-- Witness instantiating C3's amended statement on an empty-data zone and on
a one-row player list. -/
theorem shooting_zone_output_contract_amended_witness :
    (([] : List PlayerShootingZones).find?
        (fun q => q.zone_name ==
          (⟨"Above the Break 3", 0, 0, 0, 0, 0, 15, 0, 0, true, false⟩ :
            ShootingZoneMatchup).zone_name) = none ∧
      ((⟨"Above the Break 3", 0, 0, 0, 0, 0, 15, 0, 0, true, false⟩ :
          ShootingZoneMatchup).player_fgm = 0 ∧
        (⟨"Above the Break 3", 0, 0, 0, 0, 0, 15, 0, 0, true, false⟩ :
          ShootingZoneMatchup).player_fga = 0 ∧
        (⟨"Above the Break 3", 0, 0, 0, 0, 0, 15, 0, 0, true, false⟩ :
          ShootingZoneMatchup).player_fg_pct = 0 ∧
        (⟨"Above the Break 3", 0, 0, 0, 0, 0, 15, 0, 0, true, false⟩ :
          ShootingZoneMatchup).player_volume_pct = 0) ∧
      (⟨"Above the Break 3", 0, 0, 0, 0, 0, 15, 0, 0, true, false⟩ :
          ShootingZoneMatchup).opp_rank = 15) ∧
    ((([⟨1, "s", "Mid-Range", 1, 2, 50, 50⟩] : List PlayerShootingZones).map
        (fun q => q.zone_name)).Nodup ∧
      (([⟨1, "s", "Mid-Range", 1, 2, 50, 50⟩] : List PlayerShootingZones).map
        (fun q => q.fga)).sum =
        (zone_names.map (fun zn =>
          ((([⟨1, "s", "Mid-Range", 1, 2, 50, 50⟩] :
              List PlayerShootingZones).find?
            (fun q => q.zone_name == zn.1)).map (fun q => q.fga)).getD 0)).sum) := by
  have hmem : (⟨"Above the Break 3", 0, 0, 0, 0, 0, 15, 0, 0, true, false⟩ :
      ShootingZoneMatchup) ∈ shooting_zone_matchup_zones [] [] [] 0 := by
    rw [shooting_zone_matchup_zones]
    refine List.mem_map.2 ⟨("Above the Break 3", true), by decide, ?_⟩
    simp +decide [build_shooting_zone]
  have h := shooting_zone_output_contract_amended
  have h2 := h.2.1 [] [] [] 0 _ hmem
  exact ⟨⟨rfl, h2.1 rfl, h2.2.2.2.1 rfl⟩,
    ⟨by decide, h.2.2 [⟨1, "s", "Mid-Range", 1, 2, 50, 50⟩] (by decide) (by decide)⟩⟩

/-! ## Assist-zone matchup theorems -/

/-- C6 counterexample: with zones of 3 and 1 assists the reported shares are
75 and 25, not the claimed assists-over-total ratio 3/4; the field carries
the ratio scaled by 100. -/
theorem assist_zone_share_counterexample :
    ((assist_zone_matchup_zones
        [⟨1, "s", "Paint", 3, 0, 0⟩, ⟨1, "s", "Mid", 1, 0, 0⟩] [] []).map
      (fun z => z.player_ast_pct)) = [75, 25] ∧
    ¬((75 : ℚ) = 3 / 4) := by
  refine ⟨?_, by norm_num⟩
  simp +decide [assist_zone_matchup_zones, build_assist_zone, List.find?]
  norm_num

/-- C6 (amended): per player assist-zone row, the reported share is assists
over total assists scaled by 100 (zero when the total is 0); with an opponent
row for the zone, the reported allowed percentage is that row's and the rank
counts rows with a strictly lower allowed percentage for the zone plus one;
with no opponent row, hasData is false and rank and percentage are zero. -/
theorem assist_zone_matchup_amended :
    ∀ (pzs : List PlayerAssistZones) (odz : List TeamDefensiveZones)
      (atz : List (ℤ × String × ℚ)) (p : PlayerAssistZones) (i : ℕ),
      pzs[i]? = some p →
      ((assist_zone_matchup_zones pzs odz atz)[i]?).map
          (fun z => z.player_ast_pct) =
        some (if (pzs.map (fun q => q.assists)).sum > 0 then
          ((p.assists : ℚ) / (((pzs.map (fun q => q.assists)).sum : ℤ) : ℚ)) * 100
        else 0) ∧
      (∀ dz, odz.find? (fun q => q.zone_name == p.zone_name) = some dz →
        ((assist_zone_matchup_zones pzs odz atz)[i]?).map
            (fun z => (z.opp_def_fg_pct, z.opp_def_rank, z.has_data)) =
          some (dz.opp_fg_pct,
            ((atz.filter (fun r => r.2.1 == p.zone_name &&
              decide (r.2.2 < dz.opp_fg_pct))).length : ℤ) + 1, true)) ∧
      (odz.find? (fun q => q.zone_name == p.zone_name) = none →
        ((assist_zone_matchup_zones pzs odz atz)[i]?).map
            (fun z => (z.opp_def_fg_pct, z.opp_def_rank, z.has_data)) =
          some (0, 0, false)) := by
  intro pzs odz atz p i hp
  have hout : (assist_zone_matchup_zones pzs odz atz)[i]? =
      some (build_assist_zone odz atz ((pzs.map (fun q => q.assists)).sum) p) := by
    rw [assist_zone_matchup_zones, List.getElem?_map, hp]
    rfl
  refine ⟨?_, ?_, ?_⟩
  · rw [hout]
    rfl
  · intro dz hdz
    rw [hout]
    simp only [Option.map_some']
    simp only [build_assist_zone, hdz]
  · intro hnone
    rw [hout]
    simp only [Option.map_some']
    simp only [build_assist_zone, hnone]

/-- Witness instantiating C6's amended statement at one Paint zone row, an
opponent with a Paint defensive row of one half, and two league rows. -/
theorem assist_zone_matchup_amended_witness :
    (([⟨1, "s", "Paint", 3, 0, 0⟩] : List PlayerAssistZones)[0]? =
      some ⟨1, "s", "Paint", 3, 0, 0⟩) ∧
    (([⟨7, "s", "Paint", 5, 10, 1/2, 1/2⟩] : List TeamDefensiveZones).find?
      (fun q => q.zone_name == "Paint") = some ⟨7, "s", "Paint", 5, 10, 1/2, 1/2⟩) ∧
    ((assist_zone_matchup_zones [⟨1, "s", "Paint", 3, 0, 0⟩]
        [⟨7, "s", "Paint", 5, 10, 1/2, 1/2⟩]
        [(8, "Paint", 1/4), (7, "Paint", 1/2)])[0]?).map
        (fun z => (z.opp_def_fg_pct, z.opp_def_rank, z.has_data)) =
      some ((1/2 : ℚ),
        ((([(8, "Paint", 1/4), (7, "Paint", 1/2)] : List (ℤ × String × ℚ)).filter
          (fun r => r.2.1 == "Paint" && decide (r.2.2 < (1/2 : ℚ)))).length : ℤ) + 1,
        true) ∧
    ((([(8, "Paint", 1/4), (7, "Paint", 1/2)] : List (ℤ × String × ℚ)).filter
        (fun r => r.2.1 == "Paint" && decide (r.2.2 < (1/2 : ℚ)))).length : ℤ) + 1 = 2 := by
  have hdz : ([⟨7, "s", "Paint", 5, 10, 1/2, 1/2⟩] : List TeamDefensiveZones).find?
      (fun q => q.zone_name == "Paint") = some ⟨7, "s", "Paint", 5, 10, 1/2, 1/2⟩ :=
    List.find?_cons_of_pos _ (by decide)
  have happ := (assist_zone_matchup_amended [⟨1, "s", "Paint", 3, 0, 0⟩]
    [⟨7, "s", "Paint", 5, 10, 1/2, 1/2⟩]
    [(8, "Paint", 1/4), (7, "Paint", 1/2)]
    ⟨1, "s", "Paint", 3, 0, 0⟩ 0 rfl).2.1
    ⟨7, "s", "Paint", 5, 10, 1/2, 1/2⟩ hdz
  refine ⟨rfl, hdz, happ, ?_⟩
  norm_num [List.filter]

/-! ## Defensive play-type rank theorems -/

/-- The rank loop distributes over list concatenation through its final
state. -/
theorem play_type_ranks_aux_append (xs : List (ℤ × String × ℚ)) :
    ∀ (cur : String) (r : ℕ) (ys : List (ℤ × String × ℚ)),
      play_type_ranks_aux cur r (xs ++ ys) =
        play_type_ranks_aux cur r xs ++
          play_type_ranks_aux (play_type_ranks_state cur r xs).1
            (play_type_ranks_state cur r xs).2 ys := by
  induction xs with
  | nil => intro cur r ys; rfl
  | cons x t ih =>
    intro cur r ys
    obtain ⟨tid, pt2, ppp⟩ := x
    simp only [List.cons_append, play_type_ranks_aux, play_type_ranks_state]
    exact congrArg (List.cons _) (ih _ _ _)

/-- The emitted keys of the rank loop carry exactly the rows' play types in
order. -/
theorem play_type_ranks_aux_keys (xs : List (ℤ × String × ℚ)) :
    ∀ (cur : String) (r : ℕ),
      (play_type_ranks_aux cur r xs).map (fun e => e.1.2) =
        xs.map (fun x => x.2.1) := by
  induction xs with
  | nil => intro cur r; rfl
  | cons x t ih =>
    intro cur r
    obtain ⟨tid, pt2, ppp⟩ := x
    simp only [play_type_ranks_aux, List.map_cons]
    rw [ih]

/-- The final loop state is either untouched or carries one of the rows' play
types. -/
theorem play_type_ranks_state_cases (xs : List (ℤ × String × ℚ)) :
    ∀ (cur : String) (r : ℕ),
      play_type_ranks_state cur r xs = (cur, r) ∨
        (play_type_ranks_state cur r xs).1 ∈ xs.map (fun x => x.2.1) := by
  induction xs with
  | nil => intro cur r; exact Or.inl rfl
  | cons x t ih =>
    intro cur r
    obtain ⟨tid, pt2, ppp⟩ := x
    right
    simp only [play_type_ranks_state, List.map_cons]
    rcases ih pt2 (if pt2 ≠ cur then 1 else r + 1) with h | h
    · rw [h]
      exact List.mem_cons_self _ _
    · exact List.mem_cons_of_mem _ h

/-- Over a block of rows sharing one play type, the rank loop emits the
consecutive ranks continuing the running rank when the block's play type is
current and restarting at 1 otherwise, independently of the ppp values. -/
theorem play_type_ranks_aux_block (pt : String) :
    ∀ (block : List (ℤ × String × ℚ)) (cur : String) (r : ℕ),
      (∀ x ∈ block, x.2.1 = pt) →
      (play_type_ranks_aux cur r block).map (fun e => e.2) =
        List.range' ((if cur = pt then r else 0) + 1) block.length := by
  intro block
  induction block with
  | nil => intro cur r _; rfl
  | cons x t ih =>
    intro cur r hall
    obtain ⟨tid, pt2, ppp⟩ := x
    have hx : pt2 = pt := hall (tid, pt2, ppp) (List.mem_cons_self _ _)
    subst hx
    simp only [play_type_ranks_aux, List.map_cons, List.length_cons]
    have hrank : (if pt2 ≠ cur then 1 else r + 1) = (if cur = pt2 then r else 0) + 1 := by
      by_cases h : cur = pt2
      · rw [if_pos h, if_neg (by simp [h])]
      · rw [if_neg h, if_pos (Ne.symm h)]
    rw [hrank]
    rw [ih _ _ (fun y hy => hall y (List.mem_cons_of_mem _ hy))]
    rw [if_pos rfl]
    rw [List.range'_succ]

/-- The rank loop's output has no entries for a play type absent from the
rows. -/
theorem play_type_ranks_filter_nil (cur : String) (r : ℕ) (pt : String)
    (xs : List (ℤ × String × ℚ)) (h : pt ∉ xs.map (fun x => x.2.1)) :
    (play_type_ranks_aux cur r xs).filter (fun e => e.1.2 == pt) = [] := by
  rw [List.filter_eq_nil_iff]
  intro e he
  have hk : e.1.2 ∈ (play_type_ranks_aux cur r xs).map (fun e => e.1.2) :=
    List.mem_map_of_mem _ he
  rw [play_type_ranks_aux_keys] at hk
  simp only [beq_iff_eq]
  intro heq
  exact h (heq ▸ hk)

/-- Filtering the rank loop's output by the common play type of the rows
keeps everything. -/
theorem play_type_ranks_filter_self (cur : String) (r : ℕ) (pt : String)
    (xs : List (ℤ × String × ℚ)) (h : ∀ x ∈ xs, x.2.1 = pt) :
    (play_type_ranks_aux cur r xs).filter (fun e => e.1.2 == pt) =
      play_type_ranks_aux cur r xs := by
  rw [List.filter_eq_self]
  intro e he
  have hk := List.mem_map_of_mem (fun e => e.1.2) he
  rw [play_type_ranks_aux_keys] at hk
  rw [List.mem_map] at hk
  obtain ⟨x, hx, hxe⟩ := hk
  have hxe2 : x.2.1 = e.1.2 := hxe
  simp only [beq_iff_eq]
  rw [← hxe2]
  exact h x hx

/-- C7 counterexample: two rows tied at the same points-per-possession for the
same play type receive the distinct sequential ranks 1 and 2, not duplicate
ranks. -/
theorem play_type_rank_ties_counterexample :
    get_team_defensive_play_type_ranks
        [(1, "Isolation", 95/100), (2, "Isolation", 95/100)] =
      [((1, "Isolation"), 1), ((2, "Isolation"), 2)] ∧
    (2 : ℕ) ≠ 1 := by
  exact ⟨rfl, by decide⟩

/-- C7 (amended): for a contiguous block of rows of one play type flanked by
rows of other play types, the assigned ranks for that play type are exactly
the consecutive ranks 1..n in row order with no duplicates, whether or not
points-per-possession values tie; and the assigned ranks do not depend on the
points-per-possession values at all. -/
theorem play_type_ranks_amended :
    (∀ (pre block post : List (ℤ × String × ℚ)) (pt : String),
      (∀ x ∈ block, x.2.1 = pt) →
      pt ∉ pre.map (fun x => x.2.1) →
      pt ∉ post.map (fun x => x.2.1) →
      ((get_team_defensive_play_type_ranks (pre ++ block ++ post)).filter
        (fun e => e.1.2 == pt)).map (fun e => e.2) =
          List.range' 1 block.length ∧
      (((get_team_defensive_play_type_ranks (pre ++ block ++ post)).filter
        (fun e => e.1.2 == pt)).map (fun e => e.2)).Nodup) ∧
    (∀ (cur : String) (r : ℕ) (xs ys : List (ℤ × String × ℚ)),
      xs.map (fun x => (x.1, x.2.1)) = ys.map (fun y => (y.1, y.2.1)) →
      play_type_ranks_aux cur r xs = play_type_ranks_aux cur r ys) := by
  constructor
  · intro pre block post pt hblock hpre hpost
    have hmain : ((get_team_defensive_play_type_ranks (pre ++ block ++ post)).filter
        (fun e => e.1.2 == pt)).map (fun e => e.2) = List.range' 1 block.length := by
      rw [get_team_defensive_play_type_ranks, List.append_assoc]
      rw [play_type_ranks_aux_append]
      rw [play_type_ranks_aux_append]
      rw [List.filter_append, List.filter_append]
      rw [play_type_ranks_filter_nil _ _ _ _ hpre]
      rw [play_type_ranks_filter_nil _ _ _ _ hpost]
      rw [play_type_ranks_filter_self _ _ _ _ hblock]
      rw [List.nil_append, List.append_nil]
      rw [play_type_ranks_aux_block pt _ _ _ hblock]
      have hzero : (if (play_type_ranks_state "" 0 pre).1 = pt
          then (play_type_ranks_state "" 0 pre).2 else 0) = 0 := by
        rcases play_type_ranks_state_cases pre "" 0 with h | h
        · rw [h]
          exact ite_self 0
        · rw [if_neg]
          intro heq
          exact hpre (heq ▸ h)
      rw [hzero]
    exact ⟨hmain, by rw [hmain]; exact List.nodup_range' 1 block.length⟩
  · intro cur r xs
    induction xs generalizing cur r with
    | nil =>
      intro ys h
      rcases ys with _ | ⟨y, yt⟩
      · rfl
      · simp at h
    | cons x t ih =>
      intro ys h
      rcases ys with _ | ⟨y, yt⟩
      · simp at h
      · obtain ⟨tid, pt2, ppp⟩ := x
        obtain ⟨yid, ypt, yppp⟩ := y
        simp only [List.map_cons, List.cons.injEq, Prod.mk.injEq] at h
        obtain ⟨⟨h1, h2⟩, h3⟩ := h
        subst h1
        subst h2
        simp only [play_type_ranks_aux]
        rw [ih _ _ _ h3]

/-- Witness instantiating C7's amended statement: an Iso block of three rows,
two of them tied, flanked by other play types, and a ppp-independence
instance. -/
theorem play_type_ranks_amended_witness :
    ((("Iso" : String) ∉
        ([(5, "PnR", 1)] : List (ℤ × String × ℚ)).map (fun x => x.2.1)) ∧
      (∀ x ∈ ([(1, "Iso", 2), (2, "Iso", 2), (3, "Iso", 3)] :
        List (ℤ × String × ℚ)), x.2.1 = "Iso")) ∧
    ((get_team_defensive_play_type_ranks
        ([(5, "PnR", 1)] ++ [(1, "Iso", 2), (2, "Iso", 2), (3, "Iso", 3)] ++
          [(9, "Spot", 3)])).filter
      (fun e => e.1.2 == "Iso")).map (fun e => e.2) =
        List.range' 1 ([(1, "Iso", 2), (2, "Iso", 2), (3, "Iso", 3)] :
          List (ℤ × String × ℚ)).length ∧
    play_type_ranks_aux "" 0 [(1, "Iso", 1)] =
      play_type_ranks_aux "" 0 [(1, "Iso", 7)] := by
  refine ⟨⟨by decide, by decide⟩, ?_, ?_⟩
  · exact (play_type_ranks_amended.1 [(5, "PnR", 1)]
      [(1, "Iso", 2), (2, "Iso", 2), (3, "Iso", 3)] [(9, "Spot", 3)] "Iso"
      (by decide) (by decide) (by decide)).1
  · exact play_type_ranks_amended.2 "" 0 _ _ (by decide)

/-! ## Top-picks screener theorems -/

/-- A book whose line is not within 0.01 of the reference line leaves the
best-edge accumulator untouched. -/
theorem best_edge_step_skip (ud_prob ud_line : ℚ) (acc : ℚ × String × ℚ)
    (book : SharpBookLine) (h : ¬(|book.line - ud_line| < 1/100)) :
    best_edge_step ud_prob ud_line acc book = acc := by
  rw [best_edge_step, if_neg h]

/-- The best-edge loop sees only the books whose line is within 0.01 of the
reference line. -/
theorem best_edge_foldl_filter (ud_prob ud_line : ℚ) :
    ∀ (books : List SharpBookLine) (acc : ℚ × String × ℚ),
      books.foldl (best_edge_step ud_prob ud_line) acc =
        (books.filter (fun b => decide (|b.line - ud_line| < 1/100))).foldl
          (best_edge_step ud_prob ud_line) acc := by
  intro books
  induction books with
  | nil => intro acc; rfl
  | cons b t ih =>
    intro acc
    by_cases hb : |b.line - ud_line| < 1/100
    · rw [List.foldl_cons, List.filter_cons, if_pos (by simpa using hb),
        List.foldl_cons]
      exact ih _
    · rw [List.foldl_cons, List.filter_cons, if_neg (by simpa using hb),
        best_edge_step_skip _ _ _ _ hb]
      exact ih acc

/-- C1: only books at the reference line contribute to the best edge; a group
with no matching book, or whose best absolute edge is below 0.005, is
dropped; a surviving pick's edge percentage is the absolute best edge scaled
to a percentage and rounded to one decimal; and the output is sorted
descending by edge percentage with at most 20 picks. -/
theorem top_picks_screener_spec :
    (∀ (ud_prob ud_line : ℚ) (books : List SharpBookLine),
      best_edge_fold ud_prob ud_line books =
        best_edge_fold ud_prob ud_line
          (books.filter (fun b => decide (|b.line - ud_line| < 1/100)))) ∧
    (∀ g : CandidateGroup,
      (∀ b ∈ g.books, ¬(|b.line - g.ud_line| < 1/100)) →
      pick_of_group g = none) ∧
    (∀ g : CandidateGroup,
      |(best_edge_fold (implied_prob (g.ud_odds.getD ud_default_odds))
        g.ud_line g.books).1| < 5/1000 →
      pick_of_group g = none) ∧
    (∀ (g : CandidateGroup) (p : TopPick), pick_of_group g = some p →
      p.edge_pct = round_tenth
        |(best_edge_fold (implied_prob (g.ud_odds.getD ud_default_odds))
          g.ud_line g.books).1|) ∧
    (∀ groups : List CandidateGroup,
      (get_top_picks groups).Pairwise (fun a b => b.edge_pct ≤ a.edge_pct)) ∧
    (∀ groups : List CandidateGroup, (get_top_picks groups).length ≤ 20) := by
  have hfoldfilter : ∀ (ud_prob ud_line : ℚ) (books : List SharpBookLine),
      best_edge_fold ud_prob ud_line books =
        best_edge_fold ud_prob ud_line
          (books.filter (fun b => decide (|b.line - ud_line| < 1/100))) := by
    intro up ul books
    rw [best_edge_fold, best_edge_fold, best_edge_foldl_filter]
  refine ⟨hfoldfilter, ?_, ?_, ?_, ?_, ?_⟩
  · intro g h
    have hnil : g.books.filter
        (fun b => decide (|b.line - g.ud_line| < 1/100)) = [] := by
      rw [List.filter_eq_nil_iff]
      intro b hb
      simpa using h b hb
    have hfold : best_edge_fold (implied_prob (g.ud_odds.getD ud_default_odds))
        g.ud_line g.books = (0, "", 0) := by
      rw [hfoldfilter, hnil]
      rfl
    simp only [pick_of_group, hfold]
    simp
  · intro g h
    simp only [pick_of_group]
    rw [if_pos (Or.inr h)]
  · intro g p hp
    simp only [pick_of_group] at hp
    split at hp
    · exact absurd hp (by simp)
    · rw [Option.some.injEq] at hp
      rw [← hp]
  · intro groups
    have htrans : ∀ a b c : TopPick,
        decide (b.edge_pct ≤ a.edge_pct) = true →
        decide (c.edge_pct ≤ b.edge_pct) = true →
        decide (c.edge_pct ≤ a.edge_pct) = true := by
      intro a b c hab hbc
      rw [decide_eq_true_eq] at hab hbc ⊢
      exact le_trans hbc hab
    have htotal : ∀ a b : TopPick,
        (decide (b.edge_pct ≤ a.edge_pct) ||
          decide (a.edge_pct ≤ b.edge_pct)) = true := by
      intro a b
      rcases le_total b.edge_pct a.edge_pct with h | h
      · simp [h]
      · simp [h]
    have hs := List.sorted_mergeSort htrans htotal (groups.filterMap pick_of_group)
    have hsub := List.take_sublist 20
      ((groups.filterMap pick_of_group).mergeSort
        (fun a b => decide (b.edge_pct ≤ a.edge_pct)))
    have hp := List.Pairwise.sublist hsub hs
    exact hp.imp (fun h => by rwa [decide_eq_true_eq] at h)
  · intro groups
    exact List.length_take_le 20 _


/-- Witness instantiating C1 on a group with only an off-line book (dropped),
a group with no books (negligible best edge, dropped), and a surviving group
whose single matching book devigs to five eighths against a default-odds
reference. -/
theorem top_picks_screener_spec_witness :
    ((∀ b ∈ ([⟨"bk", 30, some (-110), some (-110)⟩] : List SharpBookLine),
        ¬(|b.line - (51/2 : ℚ)| < 1/100)) ∧
      pick_of_group ⟨"P", "Points", 51/2, none, "H", "A", "D",
        [⟨"bk", 30, some (-110), some (-110)⟩]⟩ = none) ∧
    ((|(best_edge_fold (implied_prob ((none : Option ℤ).getD ud_default_odds))
        (51/2) ([] : List SharpBookLine)).1| < 5/1000) ∧
      pick_of_group ⟨"Q", "Assists", 51/2, none, "H", "A", "D", []⟩ = none) ∧
    (pick_of_group ⟨"P", "Points", 51/2, none, "H", "A", "D",
        [⟨"pin", 51/2, some (-200), some 150⟩]⟩ =
      some ⟨"P", "Points", "OVER", 51/2, none, 262/5, 101/10, "pin", 125/2,
        [⟨"pin", 51/2, some (-200), some 150⟩], "H", "A", "D"⟩ ∧
      (⟨"P", "Points", "OVER", 51/2, none, 262/5, 101/10, "pin", 125/2,
        [⟨"pin", 51/2, some (-200), some 150⟩], "H", "A", "D"⟩ :
          TopPick).edge_pct =
        round_tenth |(best_edge_fold
          (implied_prob ((none : Option ℤ).getD ud_default_odds))
          (51/2) [⟨"pin", 51/2, some (-200), some 150⟩]).1|) := by
  have hprob : implied_prob ((none : Option ℤ).getD ud_default_odds) = 11/21 := by
    norm_num [implied_prob, ud_default_odds]
  have hdevig : devigged_over_prob (some (-200)) (some 150) = some (5/8) := by
    have hne : ¬(implied_prob (-200) + implied_prob 150 < 1/1000) := by
      norm_num [implied_prob]
    have hstep : devigged_over_prob (some (-200)) (some 150) =
        if implied_prob (-200) + implied_prob 150 < 1/1000 then none
        else some (implied_prob (-200) / (implied_prob (-200) + implied_prob 150)) :=
      rfl
    rw [hstep, if_neg hne]
    norm_num [implied_prob]
  have hfold : best_edge_fold (11/21) (51/2)
      [⟨"pin", 51/2, some (-200), some 150⟩] = (17/168, "pin", 5/8) := by
    rw [best_edge_fold, List.foldl_cons, List.foldl_nil]
    rw [best_edge_step, if_pos (by norm_num)]
    rw [hdevig]
    norm_num
  have hgt0 : ((17:ℚ)/168) > 0 := by norm_num
  have habs : |(17:ℚ)/168| = 17/168 := abs_of_pos hgt0
  have hr1 : round_tenth (11/21 : ℚ) = 262/5 := by
    rw [round_tenth, round_eq]
    norm_num
  have hr2 : round_tenth (17/168 : ℚ) = 101/10 := by
    rw [round_tenth, round_eq]
    norm_num
  have hr3 : round_tenth (5/8 : ℚ) = 125/2 := by
    rw [round_tenth, round_eq]
    norm_num
  have hpick : pick_of_group ⟨"P", "Points", 51/2, none, "H", "A", "D",
      [⟨"pin", 51/2, some (-200), some 150⟩]⟩ =
      some ⟨"P", "Points", "OVER", 51/2, none, 262/5, 101/10, "pin", 125/2,
        [⟨"pin", 51/2, some (-200), some 150⟩], "H", "A", "D"⟩ := by
    simp only [pick_of_group]
    rw [show implied_prob (((⟨"P", "Points", 51/2, none, "H", "A", "D",
      [⟨"pin", 51/2, some (-200), some 150⟩]⟩ :
        CandidateGroup).ud_odds).getD ud_default_odds) = 11/21 from hprob]
    simp only [hfold]
    rw [if_neg (by
      push_neg
      exact ⟨by decide, by rw [habs]; norm_num⟩)]
    have hdec : decide ((17:ℚ)/168 > 0) = true := by
      rw [decide_eq_true_eq]
      exact hgt0
    simp [hdec, habs, hr1, hr2, hr3]
  have hnomatch : ∀ b ∈ ([⟨"bk", 30, some (-110), some (-110)⟩] :
      List SharpBookLine), ¬(|b.line - (51/2 : ℚ)| < 1/100) := by
    intro b hb
    rw [List.mem_singleton] at hb
    subst hb
    rw [show (⟨"bk", 30, some (-110), some (-110)⟩ : SharpBookLine).line = 30
      from rfl]
    rw [abs_sub_lt_iff]
    norm_num
  have hsmall : |(best_edge_fold (implied_prob ((none : Option ℤ).getD
      ud_default_odds)) (51/2) ([] : List SharpBookLine)).1| < 5/1000 := by
    rw [best_edge_fold, List.foldl_nil]
    norm_num
  refine ⟨⟨hnomatch, ?_⟩, ⟨hsmall, ?_⟩, hpick, ?_⟩
  · exact top_picks_screener_spec.2.1
      ⟨"P", "Points", 51/2, none, "H", "A", "D",
        [⟨"bk", 30, some (-110), some (-110)⟩]⟩ hnomatch
  · exact top_picks_screener_spec.2.2.1
      ⟨"Q", "Assists", 51/2, none, "H", "A", "D", []⟩ hsmall
  · exact top_picks_screener_spec.2.2.2.1
      ⟨"P", "Points", 51/2, none, "H", "A", "D",
        [⟨"pin", 51/2, some (-200), some 150⟩]⟩
      ⟨"P", "Points", "OVER", 51/2, none, 262/5, 101/10, "pin", 125/2,
        [⟨"pin", 51/2, some (-200), some 150⟩], "H", "A", "D"⟩ hpick
